import Mathlib

/-!
Shallow embedding of the address / filter model and the encrypted framed
connection of this repository (source: src/internal/addr/addr.go, which holds
both the `addr` package and the pcap `TCPConn` code).

Go strings are modelled as Lean `String` (the inputs of interest are ASCII, so
byte indexing and char indexing agree), `net.IP` as `List Nat` (one entry per
byte), and Go `(value, error)` pairs as a `GoResult` sum.  External
collaborators of the connection (the raw socket, the crypto codec and the
frame extractor) are modelled as explicit oracle parameters, exactly as the
spec treats them (out-of-scope collaborators consumed through narrow
interfaces).
-/

namespace Ikago

/-! ### Generic Go result type: a `(value, error)` pair with exactly one side set -/

inductive GoResult (α : Type) where
  | ok (val : α)
  | err (msg : String)
deriving DecidableEq

/-! ### Character helpers (models of Go byte classification in strconv / net) -/

def isDigitCh (cch : Char) : Bool := '0' ≤ cch && cch ≤ '9'

def digitVal (cch : Char) : Nat := cch.toNat - '0'.toNat

def isHexCh (cch : Char) : Bool :=
  isDigitCh cch || ('a' ≤ cch && cch ≤ 'f') || ('A' ≤ cch && cch ≤ 'F')

def hexVal (cch : Char) : Nat :=
  if isDigitCh cch then digitVal cch
  else if 'a' ≤ cch && cch ≤ 'f' then cch.toNat - 'a'.toNat + 10
  else cch.toNat - 'A'.toNat + 10

/-! ### net.IP model

A `net.IP` is a byte slice; 4-byte slices and 16-byte slices with the
IPv4-in-IPv6 front are IPv4 addresses (`To4() != nil`). -/

/-- The 12 leading bytes of an IPv4-in-IPv6 address (Go `v4InV6Prefix`). -/
def v4InV6Front : List Nat := [0, 0, 0, 0, 0, 0, 0, 0, 0, 0, 255, 255]

/-- Model of Go `net.IP.To4`. -/
def to4 (ip : List Nat) : Option (List Nat) :=
  if ip.length = 4 then some ip
  else if ip.length = 16 ∧ ip.take 12 = v4InV6Front then some (ip.drop 12)
  else none

/-- The sixteen lowercase hex digits (Go `encoding/hex` `hextable`). -/
def hexLower : List Char := "0123456789abcdef".data

def hexDigitCh (n : Nat) : Char := hexLower.getD n '0'

/-- Hex encoding of one byte (Go `hex.Encode` writes `hextable[v>>4]` then
`hextable[v&0x0f]`; for a byte both indices are below 16). -/
def byteHexChars (b : Nat) : List Char := [hexDigitCh (b / 16), hexDigitCh (b % 16)]

/-- Model of Go `hex.Encode` over a whole byte slice. -/
def hexEncodeChars : List Nat → List Char
  | [] => []
  | b :: rest => byteHexChars b ++ hexEncodeChars rest

/-- Go `uitoa`: decimal rendering of an unsigned integer. -/
def uitoa (n : Nat) : String := toString n

/-- Go `appendHex`: minimal-width lowercase hex rendering of a group value. -/
def hexStrMin (n : Nat) : String := String.mk (Nat.toDigits 16 n)

/-- The eight 16-bit words of a 16-byte IPv6 address. -/
def v6Words : List Nat → List Nat
  | a :: b :: rest => (a * 256 + b) :: v6Words rest
  | _ => []

/-- Length of the zero run starting at the head of a word list. -/
def runLen : List Nat → Nat
  | [] => 0
  | w :: rest => if w = 0 then runLen rest + 1 else 0

/-- Leftmost longest run (length at least 2) of zero words, as
`(start, length)`; models the `e0`/`e1` scan of Go `net.IP.String`. -/
def bestZeroRun (ws : List Nat) : Option (Nat × Nat) :=
  (List.range ws.length).foldl
    (fun best i =>
      let l := runLen (ws.drop i)
      if 2 ≤ l then
        match best with
        | none => some (i, l)
        | some q => if q.2 < l then some (i, l) else best
      else best)
    none

/-- The compressed textual form of a 16-byte IPv6 address
(the elision loop of Go `net.IP.String`). -/
def ipStringV6 (ip : List Nat) : String :=
  let ws := v6Words ip
  match bestZeroRun ws with
  | none => String.intercalate ":" (ws.map hexStrMin)
  | some (s, l) =>
    String.intercalate ":" ((ws.take s).map hexStrMin) ++ "::" ++
      String.intercalate ":" ((ws.drop (s + l)).map hexStrMin)

/-- Model of Go `net.IP.String`. -/
def ipString (ip : List Nat) : String :=
  if ip.length = 0 then "<nil>"
  else
    match to4 ip with
    | some q => String.intercalate "." (q.map uitoa)
    | none =>
      if ip.length ≠ 16 then "?" ++ String.mk (hexEncodeChars ip)
      else ipStringV6 ip

/-- Model of `fullString` (src/internal/addr/addr.go lines 124-138): IPv4
addresses render via the library `String`; any other address is hex encoded
and sliced into eight 4-char groups joined by colons.  Go slices
`dst[0:4] ... dst[28:]`, which is total exactly when `len(ip) = 16`
(a shorter non-IPv4 slice makes the Go code panic; all theorems below stay
inside the 16-byte domain where `take`/`drop` model the slices exactly). -/
def fullString (ip : List Nat) : String :=
  match to4 ip with
  | some _ => ipString ip
  | none =>
    let dst := hexEncodeChars ip
    String.mk (dst.take 4) ++ ":" ++ String.mk ((dst.drop 4).take 4) ++ ":" ++
      String.mk ((dst.drop 8).take 4) ++ ":" ++ String.mk ((dst.drop 12).take 4) ++ ":" ++
      String.mk ((dst.drop 16).take 4) ++ ":" ++ String.mk ((dst.drop 20).take 4) ++ ":" ++
      String.mk ((dst.drop 24).take 4) ++ ":" ++ String.mk (dst.drop 28)

/-! ### Endpoint variants (the closed tagged-variant set of the data model) -/

/-- The endpoint variants handled (or rejected) by the filter compiler:
`ipAddr` models `*net.IPAddr`, `tcpAddr` models `*net.TCPAddr` (IP possibly
absent), `icmpQuery` models `ICMPQueryAddr`, `multiIP` models `MultiIPAddr`. -/
inductive GoAddr where
  | ipAddr (ip : List Nat)
  | tcpAddr (ip : Option (List Nat)) (port : Nat)
  | icmpQuery (ip : List Nat) (id : Nat)
  | multiIP (ips : List (List Nat))
deriving DecidableEq

/-- Model of `bpfFilter` (src/internal/addr/addr.go lines 140-155): a type
switch over the endpoint kind; unknown kinds produce the
`"type %T not support"` error. -/
def bpfFilter (pfx : String) (a : GoAddr) : GoResult String :=
  match a with
  | .ipAddr ip => .ok ("(" ++ pfx ++ " host " ++ fullString ip ++ ")")
  | .tcpAddr none port => .ok ("(" ++ pfx ++ " port " ++ uitoa port ++ ")")
  | .tcpAddr (some ip) port =>
    .ok ("(" ++ pfx ++ " host " ++ fullString ip ++ " && " ++ pfx ++ " port " ++ uitoa port ++ ")")
  | .icmpQuery _ _ => .err "type addr.ICMPQueryAddr not support"
  | .multiIP _ => .err "type addr.MultiIPAddr not support"

/-- Model of `SrcBPFFilter` (src/internal/addr/addr.go lines 157-160). -/
def SrcBPFFilter (a : GoAddr) : GoResult String := bpfFilter "src" a

/-- Model of `DstBPFFilter` (src/internal/addr/addr.go lines 162-165). -/
def DstBPFFilter (a : GoAddr) : GoResult String := bpfFilter "dst" a

/-! ### Model of net.SplitHostPort -/

/-- Index of the last occurrence of a character (Go `last`). -/
def lastIdx (cs : List Char) (cch : Char) : Option Nat :=
  match cs with
  | [] => none
  | x :: rest =>
    match lastIdx rest cch with
    | some i => some (i + 1)
    | none => if x = cch then some 0 else none

/-- Index of the first occurrence of a character (Go `byteIndex`). -/
def firstIdx (cs : List Char) (cch : Char) : Option Nat :=
  match cs with
  | [] => none
  | x :: rest => if x = cch then some 0 else (firstIdx rest cch).map (fun i => i + 1)

/-- Rendering of Go `net.AddrError`: `"address " + Addr + ": " + Err`. -/
def addrError (a why : String) : String := "address " ++ a ++ ": " ++ why

/-- Model of Go `net.SplitHostPort`: the port starts after the last colon;
a leading bracket delimits an IPv6 host; an unbracketed host may not contain
a colon; stray brackets are rejected. -/
def splitHostPort (s : String) : GoResult (String × String) :=
  match lastIdx s.data ':' with
  | none => .err (addrError s "missing port in address")
  | some i =>
    if s.data.head? = some '[' then
      match firstIdx s.data ']' with
      | none => .err (addrError s "missing \x27]\x27 in address")
      | some e =>
        if e + 1 = s.data.length then .err (addrError s "missing port in address")
        else if e + 1 = i then
          if ((s.data.drop 1).contains '[') then
            .err (addrError s "unexpected \x27[\x27 in address")
          else if ((s.data.drop (e + 1)).contains ']') then
            .err (addrError s "unexpected \x27]\x27 in address")
          else .ok (String.mk ((s.data.drop 1).take (e - 1)), String.mk (s.data.drop (i + 1)))
        else
          if s.data.getD (e + 1) ' ' = ':' then .err (addrError s "too many colons in address")
          else .err (addrError s "missing port in address")
    else
      if (s.data.take i).contains ':' then .err (addrError s "too many colons in address")
      else if s.data.contains '[' then .err (addrError s "unexpected \x27[\x27 in address")
      else if s.data.contains ']' then .err (addrError s "unexpected \x27]\x27 in address")
      else .ok (String.mk (s.data.take i), String.mk (s.data.drop (i + 1)))

/-! ### Model of strconv.ParseUint(s, 10, 16) -/

/-- Rendering of Go `strconv.NumError` for `ParseUint`. -/
def numErrorU (s why : String) : String :=
  "strconv.ParseUint: parsing \x22" ++ s ++ "\x22: " ++ why

/-- Model of Go `strconv.ParseUint(s, 10, 16)`: the text must be a nonempty
run of decimal digits whose value fits in 16 bits; otherwise a syntax or
range error. -/
def parseUint16E (s : String) : GoResult Nat :=
  if s.data = [] then .err (numErrorU s "invalid syntax")
  else if s.data.all isDigitCh then
    let v := s.data.foldl (fun acc cch => acc * 10 + digitVal cch) 0
    if v < 65536 then .ok v else .err (numErrorU s "value out of range")
  else .err (numErrorU s "invalid syntax")

/-! ### Model of net.ParseIP -/

/-- One dotted-decimal IPv4 field: one to three digits, no leading zero,
value at most 255. -/
def v4Field (cs : List Char) : Option Nat :=
  if cs.length = 0 ∨ 3 < cs.length then none
  else if ¬ cs.all isDigitCh then none
  else if 1 < cs.length ∧ cs.head? = some '0' then none
  else
    let v := cs.foldl (fun acc cch => acc * 10 + digitVal cch) 0
    if v ≤ 255 then some v else none

/-- Model of the IPv4 branch of Go `net.ParseIP`: exactly four valid fields
separated by dots; the result is the 16-byte IPv4-in-IPv6 representation. -/
def parseIPv4 (cs : List Char) : Option (List Nat) :=
  match (cs.splitOn '.').mapM v4Field with
  | some [a, b, c, d] => some (v4InV6Front ++ [a, b, c, d])
  | _ => none

/-- One IPv6 hex group: one to four hex digits. -/
def v6Group (cs : List Char) : Option Nat :=
  if cs.length = 0 ∨ 4 < cs.length then none
  else if cs.all isHexCh then some (cs.foldl (fun acc cch => acc * 16 + hexVal cch) 0)
  else none

/-- Bytes of a colon-separated run of hex groups (no embedded IPv4 allowed;
used left of an ellipsis). -/
def v6HexBytes : List (List Char) → Option (List Nat)
  | [] => some []
  | f :: rest =>
    match v6Group f, v6HexBytes rest with
    | some n, some bs => some ([n / 256, n % 256] ++ bs)
    | _, _ => none

/-- Bytes of a colon-separated run of hex groups whose final group may be an
embedded dotted IPv4 address (the address tail). -/
def v6TailBytes : List (List Char) → Option (List Nat)
  | [] => some []
  | [f] =>
    if f.contains '.' then (parseIPv4 f).map (fun ip => ip.drop 12)
    else (v6Group f).map (fun n => [n / 256, n % 256])
  | f :: g :: rest =>
    match v6Group f, v6TailBytes (g :: rest) with
    | some n, some bs => some ([n / 256, n % 256] ++ bs)
    | _, _ => none

/-- Split at the first `::`, when present. -/
def splitEllipsis : List Char → Option (List Char × List Char)
  | ':' :: ':' :: rest => some ([], rest)
  | c :: rest => (splitEllipsis rest).map (fun p => (c :: p.1, p.2))
  | [] => none

/-- Model of the IPv6 branch of Go `net.ParseIP`: at most one `::`; without
it exactly 16 bytes of groups; with it strictly fewer, padded with zero bytes
at the ellipsis.  A dotted IPv4 tail may only end the address. -/
def parseIPv6 (cs : List Char) : Option (List Nat) :=
  match splitEllipsis cs with
  | none =>
    match v6TailBytes (cs.splitOn ':') with
    | some bs => if bs.length = 16 then some bs else none
    | none => none
  | some (l, r) =>
    let lf := if l.isEmpty then [] else l.splitOn ':'
    let rf := if r.isEmpty then [] else r.splitOn ':'
    match v6HexBytes lf, v6TailBytes rf with
    | some lb, some rb =>
      if lb.length + rb.length ≤ 14 then
        some (lb ++ List.replicate (16 - lb.length - rb.length) 0 ++ rb)
      else none
    | _, _ => none

/-- Model of Go `net.ParseIP`: scan for the first dot or colon and dispatch
to the IPv4 or IPv6 grammar; neither present means not an IP. -/
def parseIP (s : String) : Option (List Nat) :=
  match s.data.find? (fun cch => cch = '.' || cch = ':') with
  | some '.' => parseIPv4 s.data
  | some ':' => parseIPv6 s.data
  | _ => none

/-! ### ParseTCPAddr and ParseAddr (src/internal/addr/addr.go lines 64-110) -/

/-- Outcome of `ParseAddr`: a value, an error, or a runtime panic (the Go
code indexes `s[0]` without a bounds check). -/
inductive ParseRes where
  | ok (a : GoAddr)
  | err (msg : String)
  | panics (msg : String)
deriving DecidableEq

/-- Model of `ParseTCPAddr` (src/internal/addr/addr.go lines 65-82): split
host and port, parse the IP, parse the port as a 16-bit unsigned integer. -/
def ParseTCPAddr (s : String) : GoResult GoAddr :=
  match splitHostPort s with
  | .err e => .err ("split host port: " ++ e)
  | .ok (ipStr, portStr) =>
    match parseIP ipStr with
    | none => .err ("invalid ip " ++ ipStr)
    | some ip =>
      match parseUint16E portStr with
      | .err e => .err ("parse port " ++ portStr ++ ": " ++ e)
      | .ok port => .ok (.tcpAddr (some ip) port)

/-- Model of `ParseAddr` (src/internal/addr/addr.go lines 85-110): the code
first reads `s[0]` (a panic on the empty string), treats a leading colon as
`":<port>"`, otherwise tries `ParseTCPAddr`, and falls back to a bare IP. -/
def ParseAddr (s : String) : ParseRes :=
  match s.data with
  | [] => .panics "index out of range"
  | c :: rest =>
    if c = ':' then
      match parseUint16E (String.mk rest) with
      | .err e => .err ("parse port " ++ String.mk rest ++ ": " ++ e)
      | .ok port => .ok (.tcpAddr none port)
    else
      match ParseTCPAddr s with
      | .ok a => .ok a
      | .err _ =>
        match parseIP s with
        | none => .err ("invalid ip " ++ s)
        | some ip => .ok (.ipAddr ip)

/-! ### Encrypted framed connection (pcap `TCPConn`)

The mutable per-connection state carries the stash (already extracted,
decrypted frames) and the cursor into it; the local and remote endpoint
strings stand for `conn.LocalAddr()` / `conn.RemoteAddr()` and only feed the
error values.  The socket, codec and frame extractor are external
collaborators, passed as oracles: `sock` is the outcome of the one
`conn.Read` a call may perform, `decrypt`/`append` are the codec and
extractor calls, `send` is `conn.Write`. -/

structure ConnState where
  stash : Option (List (List Nat))
  stashId : Nat
  localAddr : String
  remoteAddr : String
deriving DecidableEq

/-- Model of `newTCPConn`: empty (non-nil) stash and cursor zero. -/
def newTCPConn (localAddr remoteAddr : String) : ConnState :=
  { stash := some [], stashId := 0, localAddr := localAddr, remoteAddr := remoteAddr }

/-- Outcome of the one underlying socket read. -/
inductive SockRead where
  | ok (data : List Nat)
  | fail (msg : String)
deriving DecidableEq

/-- Error values surfaced by `Read`/`Write`: either a raw error passed
through from the socket, or a `net.OpError` with operation, network, local
and remote endpoints, and a wrapped cause. -/
inductive NetErr where
  | raw (msg : String)
  | opError (op net src dst msg : String)
deriving DecidableEq

/-- The external collaborators visible to one `Read` call. -/
structure ReadEnv where
  sock : SockRead
  decrypt : List Nat → GoResult (List Nat)
  append : List Nat → GoResult (List (List Nat))

/-- Everything a `Read` call produces: the returned `(n, err)` pair, the
caller buffer after the call, the connection state after the call, and
whether the underlying socket was read. -/
structure ReadRes where
  n : Nat
  err : Option NetErr
  buf : List Nat
  conn : ConnState
  socketRead : Bool
deriving DecidableEq

def stashLen (c : ConnState) : Nat := (c.stash.getD []).length

/-- The stash-exhausted test of `Read`
(`c.stash == nil || len(c.stash) <= c.stashId`). -/
def exhausted (c : ConnState) : Prop := c.stash = none ∨ stashLen c ≤ c.stashId

instance (c : ConnState) : Decidable (exhausted c) :=
  inferInstanceAs (Decidable (c.stash = none ∨ stashLen c ≤ c.stashId))

/-- Model of Go `copy(dst, src)`: overwrite the first
`min (len dst) (len src)` entries of `dst`, keep the rest of `dst`. -/
def goCopy (dst src : List Nat) : List Nat :=
  src.take dst.length ++ dst.drop src.length

/-- The stash delivery step of `Read` (src lines 269-274): copy the frame at
the cursor into the caller buffer, advance the cursor, and return the full
frame length.  Both call sites guarantee the cursor is in range, so the
`getD` defaults are never hit. -/
def deliverStash (c : ConnState) (b : List Nat) (touched : Bool) : ReadRes :=
  let frame := (c.stash.getD []).getD c.stashId []
  { n := frame.length, err := none, buf := goCopy b frame,
    conn := { c with stashId := c.stashId + 1 }, socketRead := touched }

/-- The socket branch of `Read` (src lines 232-267): one socket read,
decrypt, feed the extractor; zero extracted frames is a zero-length no-error
result; otherwise the extracted frames become the new stash with the cursor
reset to zero and delivery proceeds. -/
def readFromSock (c : ConnState) (b : List Nat) (env : ReadEnv) : ReadRes :=
  match env.sock with
  | .fail e => { n := 0, err := some (.raw e), buf := b, conn := c, socketRead := true }
  | .ok data =>
    match env.decrypt data with
    | .err e =>
      { n := 0,
        err := some (.opError "read" "pcap" c.localAddr c.remoteAddr ("decrypt: " ++ e)),
        buf := b, conn := c, socketRead := true }
    | .ok dp =>
      match env.append dp with
      | .err e =>
        { n := 0,
          err := some (.opError "read" "pcap" c.localAddr c.remoteAddr ("destick: " ++ e)),
          buf := b, conn := c, socketRead := true }
      | .ok packets =>
        if packets.length = 0 then
          { n := 0, err := none, buf := b, conn := c, socketRead := true }
        else
          deliverStash { c with stash := some packets, stashId := 0 } b true

/-- Model of `TCPConn.Read` (src/internal/addr/addr.go lines 230-275). -/
def TCPConn.Read (c : ConnState) (b : List Nat) (env : ReadEnv) : ReadRes :=
  if exhausted c then readFromSock c b env else deliverStash c b false

/-- The external collaborators visible to one `Write` call. -/
structure WriteEnv where
  encrypt : List Nat → GoResult (List Nat)
  send : List Nat → Nat × Option String

/-- Everything a `Write` call produces: the returned `(n, err)` pair, the
payloads handed to the underlying socket write (in order), and the inputs
handed to the codec (in order). -/
structure WriteRes where
  n : Nat
  err : Option NetErr
  sent : List (List Nat)
  encCalls : List (List Nat)
deriving DecidableEq

/-- Model of `TCPConn.Write` (src/internal/addr/addr.go lines 277-291):
encrypt the whole input in one codec call; a codec failure returns zero and
a `net.OpError` wrapping `"encrypt"`, with nothing sent; otherwise the
ciphertext goes to the socket in a single write whose result is returned
verbatim. -/
def TCPConn.Write (c : ConnState) (b : List Nat) (env : WriteEnv) : WriteRes :=
  match env.encrypt b with
  | .err e =>
    { n := 0,
      err := some (.opError "write" "pcap" c.localAddr c.remoteAddr ("encrypt: " ++ e)),
      sent := [], encCalls := [b] }
  | .ok contents =>
    let r := env.send contents
    { n := r.1, err := r.2.map .raw, sent := [contents], encCalls := [b] }

/-- A concrete environment whose oracles are never consulted on the paths it
is used on. -/
def envNoop : ReadEnv :=
  { sock := .ok [], decrypt := fun d => .ok d, append := fun _ => .ok [] }

/-! ### Theorems -/

/-- Claim C9: `ParseAddr` unconditionally indexes the first character of its
input, so on the empty string the model hits the unguarded-indexing (panic)
branch instead of returning an error value. -/
theorem parseAddr_empty_panics : ParseAddr "" = .panics "index out of range" := by decide

/-- Claim C6: filter compilation with direction `"src"` or `"dst"` yields
`(<dir> host <expanded>)` for a point-IP endpoint, `(<dir> port <p>)` for a
TCP endpoint without IP, `(<dir> host <expanded> && <dir> port <p>)` for a
TCP endpoint with IP and port, and an unsupported-kind error for the
ICMP-query and multi-IP kinds; `SrcBPFFilter`/`DstBPFFilter` are exactly the
two directions. -/
theorem bpfFilter_cases (pfx : String) (hp : pfx = "src" ∨ pfx = "dst")
    (ip : List Nat) (port qid : Nat) (ips : List (List Nat)) :
    bpfFilter pfx (.ipAddr ip) = .ok ("(" ++ pfx ++ " host " ++ fullString ip ++ ")")
    ∧ bpfFilter pfx (.tcpAddr none port) = .ok ("(" ++ pfx ++ " port " ++ uitoa port ++ ")")
    ∧ bpfFilter pfx (.tcpAddr (some ip) port) =
        .ok ("(" ++ pfx ++ " host " ++ fullString ip ++ " && " ++ pfx ++ " port " ++
          uitoa port ++ ")")
    ∧ (∃ e, bpfFilter pfx (.icmpQuery ip qid) = .err e)
    ∧ (∃ e, bpfFilter pfx (.multiIP ips) = .err e)
    ∧ (∀ a, SrcBPFFilter a = bpfFilter "src" a)
    ∧ (∀ a, DstBPFFilter a = bpfFilter "dst" a) := by
  exact ⟨rfl, rfl, rfl, ⟨_, rfl⟩, ⟨_, rfl⟩, fun a => rfl, fun a => rfl⟩

theorem bpfFilter_cases_witness :
    SrcBPFFilter (.ipAddr [10, 0, 0, 1]) = .ok "(src host 10.0.0.1)"
    ∧ DstBPFFilter (.tcpAddr none 53) = .ok "(dst port 53)"
    ∧ DstBPFFilter (.tcpAddr (some [10, 0, 0, 1]) 53) =
        .ok "(dst host 10.0.0.1 && dst port 53)"
    ∧ (∃ e, SrcBPFFilter (.icmpQuery [10, 0, 0, 1] 7) = .err e)
    ∧ (∃ e, SrcBPFFilter (.multiIP []) = .err e) := by
  have hs := bpfFilter_cases "src" (Or.inl rfl) [10, 0, 0, 1] 53 7 []
  have hd := bpfFilter_cases "dst" (Or.inr rfl) [10, 0, 0, 1] 53 7 []
  refine ⟨?_, ?_, ?_, ?_, ?_⟩
  · exact ((hs.2.2.2.2.2.1 _).trans hs.1).trans (by decide)
  · exact ((hd.2.2.2.2.2.2 _).trans hd.2.1).trans (by decide)
  · exact ((hd.2.2.2.2.2.2 _).trans hd.2.2.1).trans (by decide)
  · exact ⟨_, (hs.2.2.2.2.2.1 _).trans (hs.2.2.2.1).choose_spec⟩
  · exact ⟨_, (hs.2.2.2.2.2.1 _).trans (hs.2.2.2.2.1).choose_spec⟩

/-- Claim C4: `Write` encrypts the full input in one codec call; a codec
failure returns zero and a write error wrapping `"encrypt"` that carries the
local and remote endpoints and the cause, with nothing written to the
socket; a codec success transmits the ciphertext in a single underlying
socket write whose result is returned verbatim. -/
theorem write_contract (c : ConnState) (b : List Nat) (env : WriteEnv) :
    (TCPConn.Write c b env).encCalls = [b]
    ∧ (∀ e, env.encrypt b = .err e →
        TCPConn.Write c b env =
          { n := 0,
            err := some (.opError "write" "pcap" c.localAddr c.remoteAddr ("encrypt: " ++ e)),
            sent := [], encCalls := [b] })
    ∧ (∀ ct, env.encrypt b = .ok ct →
        (TCPConn.Write c b env).sent = [ct]
        ∧ (TCPConn.Write c b env).n = (env.send ct).1
        ∧ (TCPConn.Write c b env).err = (env.send ct).2.map NetErr.raw) := by
  refine ⟨?_, ?_, ?_⟩
  · unfold TCPConn.Write
    cases env.encrypt b <;> rfl
  · intro e he
    unfold TCPConn.Write
    rw [he]
  · intro ct hct
    unfold TCPConn.Write
    rw [hct]
    exact ⟨rfl, rfl, rfl⟩

theorem write_contract_witness :
    TCPConn.Write (newTCPConn "L" "R") [1, 2] ⟨fun _ => .err "bad", fun l => (l.length, none)⟩ =
      { n := 0,
        err := some (.opError "write" "pcap" "L" "R" "encrypt: bad"),
        sent := [], encCalls := [[1, 2]] }
    ∧ (TCPConn.Write (newTCPConn "L" "R") [1, 2]
        ⟨fun l => .ok (0 :: l), fun l => (l.length, none)⟩).sent = [[0, 1, 2]] := by
  constructor
  · exact (write_contract (newTCPConn "L" "R") [1, 2] _).2.1 "bad" rfl
  · exact ((write_contract (newTCPConn "L" "R") [1, 2] _).2.2 [0, 1, 2] rfl).1

/-- Claim C10: on a successful `Write` the returned byte count is the count
accepted by the underlying socket write of the ciphertext, so whenever the
ciphertext length differs from the plaintext length the return value differs
from the input length. -/
theorem write_returns_ciphertext_count (c : ConnState) (b : List Nat) (env : WriteEnv)
    (ct : List Nat) (he : env.encrypt b = .ok ct) (hs : env.send ct = (ct.length, none)) :
    (TCPConn.Write c b env).n = ct.length
    ∧ (ct.length ≠ b.length → (TCPConn.Write c b env).n ≠ b.length) := by
  have hn : (TCPConn.Write c b env).n = ct.length := by
    unfold TCPConn.Write
    rw [he]
    simp [hs]
  exact ⟨hn, fun hne => hn ▸ hne⟩

theorem write_returns_ciphertext_count_witness :
    (TCPConn.Write (newTCPConn "L" "R") [1]
        ⟨fun l => .ok (0 :: l), fun l => (l.length, none)⟩).n = 2
    ∧ (TCPConn.Write (newTCPConn "L" "R") [1]
        ⟨fun l => .ok (0 :: l), fun l => (l.length, none)⟩).n ≠ 1 := by
  have h := write_returns_ciphertext_count (newTCPConn "L" "R") [1]
    ⟨fun l => .ok (0 :: l), fun l => (l.length, none)⟩ [0, 1] rfl rfl
  exact ⟨h.1, h.2 (by decide)⟩

/-- Claim C3: when the stash is exhausted and the socket read, decryption
and the extractor `Append` all succeed but zero frames come back, `Read`
returns length zero with no error and leaves the buffer, the stash and the
cursor untouched. -/
theorem read_incomplete_frame (c : ConnState) (b : List Nat) (env : ReadEnv)
    (data dp : List Nat) (hex : exhausted c) (hs : env.sock = .ok data)
    (hd : env.decrypt data = .ok dp) (ha : env.append dp = .ok []) :
    (TCPConn.Read c b env).n = 0 ∧ (TCPConn.Read c b env).err = none
    ∧ (TCPConn.Read c b env).conn = c ∧ (TCPConn.Read c b env).buf = b := by
  have h1 : TCPConn.Read c b env = readFromSock c b env := by
    unfold TCPConn.Read
    exact if_pos hex
  rw [h1]
  unfold readFromSock
  simp [hs, hd, ha]

theorem read_incomplete_frame_witness :
    (TCPConn.Read (newTCPConn "L" "R") [9]
        ⟨.ok [1], fun d => .ok d, fun _ => .ok []⟩).n = 0
    ∧ (TCPConn.Read (newTCPConn "L" "R") [9]
        ⟨.ok [1], fun d => .ok d, fun _ => .ok []⟩).err = none
    ∧ (TCPConn.Read (newTCPConn "L" "R") [9]
        ⟨.ok [1], fun d => .ok d, fun _ => .ok []⟩).conn = newTCPConn "L" "R"
    ∧ (TCPConn.Read (newTCPConn "L" "R") [9]
        ⟨.ok [1], fun d => .ok d, fun _ => .ok []⟩).buf = [9] := by
  exact read_incomplete_frame (newTCPConn "L" "R") [9] _ [1] [1]
    (Or.inr (by decide)) rfl rfl rfl

/-- Claim C2, counterexample: with stash frame `[1,2,3,4,5]` and a 3-byte
destination, `Read` copies the 3 bytes that fit but returns 5, the full
frame length — not the truncated count 3 the claim states. -/
theorem read_truncation_cex :
    (TCPConn.Read ⟨some [[1, 2, 3, 4, 5]], 0, "L", "R"⟩ [9, 9, 9] envNoop).n = 5
    ∧ (TCPConn.Read ⟨some [[1, 2, 3, 4, 5]], 0, "L", "R"⟩ [9, 9, 9] envNoop).buf = [1, 2, 3]
    ∧ (TCPConn.Read ⟨some [[1, 2, 3, 4, 5]], 0, "L", "R"⟩ [9, 9, 9] envNoop).n ≠ 3 := by
  decide

/-- Claim C2, amended: for a stashed frame longer than the destination
buffer, `Read` copies only the bytes that fit, discards the rest of the
frame, reports no error, and returns the full frame length (which exceeds
the destination length) as the read size. -/
theorem read_truncation (c : ConnState) (b : List Nat) (env : ReadEnv)
    (st : List (List Nat)) (frame : List Nat) (hs : c.stash = some st)
    (hlt : c.stashId < st.length) (hf : st.getD c.stashId [] = frame)
    (hsmall : b.length < frame.length) :
    (TCPConn.Read c b env).n = frame.length
    ∧ (TCPConn.Read c b env).buf = frame.take b.length
    ∧ (TCPConn.Read c b env).err = none
    ∧ b.length < (TCPConn.Read c b env).n := by
  have hnex : ¬ exhausted c := by
    unfold exhausted stashLen
    rw [hs]
    simp
    omega
  have h1 : TCPConn.Read c b env = deliverStash c b false := by
    unfold TCPConn.Read
    exact if_neg hnex
  have hfr : (c.stash.getD []).getD c.stashId [] = frame := by rw [hs]; exact hf
  rw [h1]
  unfold deliverStash goCopy
  rw [hfr]
  refine ⟨rfl, ?_, rfl, hsmall⟩
  have hdrop : b.drop frame.length = [] := List.drop_eq_nil_of_le (by omega)
  simp [hdrop]

/-- A successful host/port split whose host parses as an IP never starts
with a colon (a leading colon either empties the host or puts a colon inside
it). -/
theorem splitHostPort_ok_head {s host portStr : String}
    (h : splitHostPort s = .ok (host, portStr)) (hip : parseIP host ≠ none) :
    s.data ≠ [] ∧ s.data.head? ≠ some ':' := by
  constructor
  · intro hnil
    unfold splitHostPort at h
    rw [hnil] at h
    simp [lastIdx] at h
  · intro hcol
    obtain ⟨t, hdata⟩ : ∃ t, s.data = ':' :: t := by
      cases hd : s.data with
      | nil => rw [hd] at hcol; simp at hcol
      | cons c rest =>
        rw [hd] at hcol
        simp at hcol
        exact ⟨rest, by rw [hcol]⟩
    unfold splitHostPort at h
    rw [hdata] at h
    cases hl : lastIdx (':' :: t) ':' with
    | none => rw [hl] at h; simp at h
    | some i =>
      rw [hl] at h
      simp only [List.head?] at h
      cases i with
      | zero =>
        simp at h
        split at h
        · simp at h
        · split at h
          · simp at h
          · simp at h
            exact hip (by rw [← h.1]; rfl)
      | succ j =>
        have hcont : ((':' :: t).take (j + 1)).contains ':' = true := by
          simp [List.take]
        simp [hcont] at h

/-- Claim C7: endpoint parsing tries three grammars in order — a leading
colon with a 16-bit port yields a wildcard-IP TCP endpoint; a splittable
`<ip>:<port>` text with a valid IP and a 16-bit port yields a TCP endpoint
with exactly that IP and port; a remaining bare valid IP yields a point-IP
endpoint with no port. -/
theorem parseAddr_grammars :
    (∀ (s : String) (port : Nat), s.data.head? = some ':' →
        parseUint16E (String.mk (s.data.drop 1)) = .ok port →
        ParseAddr s = .ok (.tcpAddr none port))
    ∧ (∀ (s host portStr : String) (ip : List Nat) (port : Nat),
        splitHostPort s = .ok (host, portStr) → parseIP host = some ip →
        parseUint16E portStr = .ok port →
        ParseAddr s = .ok (.tcpAddr (some ip) port))
    ∧ (∀ (s e : String) (ip : List Nat), s.data.head? ≠ some ':' →
        ParseTCPAddr s = .err e → parseIP s = some ip →
        ParseAddr s = .ok (.ipAddr ip)) := by
  refine ⟨?_, ?_, ?_⟩
  · intro s port hcol hport
    obtain ⟨t, hdata⟩ : ∃ t, s.data = ':' :: t := by
      cases hd : s.data with
      | nil => rw [hd] at hcol; simp at hcol
      | cons c rest =>
        rw [hd] at hcol
        simp at hcol
        exact ⟨rest, by rw [hcol]⟩
    rw [hdata] at hport
    unfold ParseAddr
    rw [hdata]
    simp only [List.drop_succ_cons, List.drop_zero] at hport
    simp [hport]
  · intro s host portStr ip port hsp hip hport
    have hne := splitHostPort_ok_head hsp (by rw [hip]; simp)
    obtain ⟨c, t, hdata, hcne⟩ : ∃ c t, s.data = c :: t ∧ c ≠ ':' := by
      cases hd : s.data with
      | nil => exact absurd hd hne.1
      | cons c rest =>
        refine ⟨c, rest, rfl, fun hc => hne.2 ?_⟩
        rw [hd, hc]
        rfl
    have htcp : ParseTCPAddr s = .ok (.tcpAddr (some ip) port) := by
      unfold ParseTCPAddr
      rw [hsp]
      simp [hip, hport]
    unfold ParseAddr
    rw [hdata]
    simp [hcne, htcp]
  · intro s e ip hcol htcp hip
    obtain ⟨c, t, hdata, hcne⟩ : ∃ c t, s.data = c :: t ∧ c ≠ ':' := by
      cases hd : s.data with
      | nil =>
        unfold parseIP at hip
        rw [hd] at hip
        simp at hip
      | cons c rest =>
        refine ⟨c, rest, rfl, fun hc => hcol ?_⟩
        rw [hd, hc]
        rfl
    unfold ParseAddr
    rw [hdata]
    simp [hcne, htcp, hip]

theorem parseAddr_grammars_witness :
    ParseAddr ":80" = .ok (.tcpAddr none 80)
    ∧ ParseAddr "1.2.3.4:80" =
        .ok (.tcpAddr (some [0, 0, 0, 0, 0, 0, 0, 0, 0, 0, 255, 255, 1, 2, 3, 4]) 80)
    ∧ ParseAddr "1.2.3.4" =
        .ok (.ipAddr [0, 0, 0, 0, 0, 0, 0, 0, 0, 0, 255, 255, 1, 2, 3, 4]) := by
  refine ⟨?_, ?_, ?_⟩
  · exact parseAddr_grammars.1 ":80" 80 rfl (by decide)
  · exact parseAddr_grammars.2.1 "1.2.3.4:80" "1.2.3.4" "80"
      [0, 0, 0, 0, 0, 0, 0, 0, 0, 0, 255, 255, 1, 2, 3, 4] 80 (by decide) (by decide) (by decide)
  · exact parseAddr_grammars.2.2 "1.2.3.4"
      ("split host port: " ++ addrError "1.2.3.4" "missing port in address")
      [0, 0, 0, 0, 0, 0, 0, 0, 0, 0, 255, 255, 1, 2, 3, 4] (by decide) (by decide) (by decide)

/-- Claim C8: parse failures name the offending substring — a leading-colon
text with a bad port reports `parse port <port substring>`, a split text
whose host is not an IP reports `invalid ip <host>`, a split text with a
valid host but bad port reports `parse port <port substring>`, and a text
that fits none of the grammars reports `invalid ip <text>`. -/
theorem parseAddr_errors :
    (∀ (s e : String), s.data.head? = some ':' →
        parseUint16E (String.mk (s.data.drop 1)) = .err e →
        ParseAddr s = .err ("parse port " ++ String.mk (s.data.drop 1) ++ ": " ++ e))
    ∧ (∀ (s host portStr : String), splitHostPort s = .ok (host, portStr) →
        parseIP host = none → ParseTCPAddr s = .err ("invalid ip " ++ host))
    ∧ (∀ (s host portStr e : String) (ip : List Nat),
        splitHostPort s = .ok (host, portStr) → parseIP host = some ip →
        parseUint16E portStr = .err e →
        ParseTCPAddr s = .err ("parse port " ++ portStr ++ ": " ++ e))
    ∧ (∀ (s e : String), s.data ≠ [] → s.data.head? ≠ some ':' →
        ParseTCPAddr s = .err e → parseIP s = none →
        ParseAddr s = .err ("invalid ip " ++ s)) := by
  refine ⟨?_, ?_, ?_, ?_⟩
  · intro s e hcol hport
    obtain ⟨t, hdata⟩ : ∃ t, s.data = ':' :: t := by
      cases hd : s.data with
      | nil => rw [hd] at hcol; simp at hcol
      | cons c rest =>
        rw [hd] at hcol
        simp at hcol
        exact ⟨rest, by rw [hcol]⟩
    rw [hdata] at hport
    unfold ParseAddr
    rw [hdata]
    simp only [List.drop_succ_cons, List.drop_zero] at hport
    simp [hport]
  · intro s host portStr hsp hip
    unfold ParseTCPAddr
    rw [hsp]
    simp [hip]
  · intro s host portStr e ip hsp hip hport
    unfold ParseTCPAddr
    rw [hsp]
    simp [hip, hport]
  · intro s e hnil hcol htcp hip
    obtain ⟨c, t, hdata, hcne⟩ : ∃ c t, s.data = c :: t ∧ c ≠ ':' := by
      cases hd : s.data with
      | nil => exact absurd hd hnil
      | cons c rest =>
        refine ⟨c, rest, rfl, fun hc => hcol ?_⟩
        rw [hd, hc]
        rfl
    unfold ParseAddr
    rw [hdata]
    simp [hcne, htcp, hip]

theorem parseAddr_errors_witness :
    ParseAddr ":abc" =
      .err ("parse port abc: " ++ numErrorU "abc" "invalid syntax")
    ∧ ParseTCPAddr "zzz:80" = .err "invalid ip zzz"
    ∧ ParseTCPAddr "1.2.3.4:99999" =
        .err ("parse port 99999: " ++ numErrorU "99999" "value out of range")
    ∧ ParseAddr "abc" = .err "invalid ip abc" := by
  refine ⟨?_, ?_, ?_, ?_⟩
  · exact (parseAddr_errors.1 ":abc" (numErrorU "abc" "invalid syntax") rfl
      (by decide)).trans (by decide)
  · exact (parseAddr_errors.2.1 "zzz:80" "zzz" "80" (by decide) (by decide)).trans (by decide)
  · exact (parseAddr_errors.2.2.1 "1.2.3.4:99999" "1.2.3.4" "99999"
      (numErrorU "99999" "value out of range")
      [0, 0, 0, 0, 0, 0, 0, 0, 0, 0, 255, 255, 1, 2, 3, 4]
      (by decide) (by decide) (by decide)).trans (by decide)
  · exact (parseAddr_errors.2.2.2 "abc"
      ("split host port: " ++ addrError "abc" "missing port in address")
      (by decide) (by decide) (by decide) (by decide)).trans (by decide)

/-- Every hex digit the encoder can emit is a lowercase hex character. -/
theorem hexDigitCh_mem (n : Nat) : hexDigitCh n ∈ hexLower := by
  unfold hexDigitCh
  by_cases h : n < 16
  · interval_cases n <;> decide
  · rw [List.getD_eq_default]
    · decide
    · have h16 : hexLower.length = 16 := by decide
      omega

/-- Every character of a hex-encoded byte slice is a lowercase hex character. -/
theorem hexEncodeChars_mem (ip : List Nat) (cch : Char) (h : cch ∈ hexEncodeChars ip) :
    cch ∈ hexLower := by
  induction ip with
  | nil => simp [hexEncodeChars] at h
  | cons a t ih =>
    simp only [hexEncodeChars, List.mem_append] at h
    rcases h with h | h
    · unfold byteHexChars at h
      simp at h
      rcases h with rfl | rfl <;> exact hexDigitCh_mem _
    · exact ih h

/-- Hex encoding doubles the length. -/
theorem hexEncodeChars_length (ip : List Nat) : (hexEncodeChars ip).length = 2 * ip.length := by
  induction ip with
  | nil => rfl
  | cons a t ih =>
    simp [hexEncodeChars, byteHexChars, ih]
    omega

/-- Claim C5: on a 16-byte non-IPv4 address, `fullString` yields exactly
eight colon-separated groups of exactly four lowercase hex characters each
(39 characters in total, so never the compressed shorthand); on an IPv4
address it renders via the library textual form. -/
theorem fullString_expanded (ip : List Nat) :
    (∀ q, to4 ip = some q → fullString ip = ipString ip)
    ∧ (ip.length = 16 → to4 ip = none →
        ∃ g1 g2 g3 g4 g5 g6 g7 g8 : String,
          fullString ip =
            g1 ++ ":" ++ g2 ++ ":" ++ g3 ++ ":" ++ g4 ++ ":" ++ g5 ++ ":" ++ g6 ++ ":" ++
              g7 ++ ":" ++ g8
          ∧ (∀ g ∈ [g1, g2, g3, g4, g5, g6, g7, g8],
              g.length = 4 ∧ ∀ cch ∈ g.data, cch ∈ hexLower)
          ∧ (fullString ip).length = 39) := by
  constructor
  · intro q hq
    simp [fullString, hq]
  · intro hlen h4
    have hdl : (hexEncodeChars ip).length = 32 := by rw [hexEncodeChars_length, hlen]
    refine ⟨String.mk ((hexEncodeChars ip).take 4),
      String.mk (((hexEncodeChars ip).drop 4).take 4),
      String.mk (((hexEncodeChars ip).drop 8).take 4),
      String.mk (((hexEncodeChars ip).drop 12).take 4),
      String.mk (((hexEncodeChars ip).drop 16).take 4),
      String.mk (((hexEncodeChars ip).drop 20).take 4),
      String.mk (((hexEncodeChars ip).drop 24).take 4),
      String.mk ((hexEncodeChars ip).drop 28), ?_, ?_, ?_⟩
    · simp [fullString, h4]
    · intro g hg
      have hlen4 : ∀ k, (((hexEncodeChars ip).drop k).take 4).length = min 4 (32 - k) := by
        intro k
        rw [List.length_take, List.length_drop, hdl]
      have hmemtd : ∀ (k : Nat) (cch : Char), cch ∈ ((hexEncodeChars ip).drop k).take 4 →
          cch ∈ hexLower := by
        intro k cch hc
        exact hexEncodeChars_mem ip cch (List.drop_subset _ _ (List.take_subset _ _ hc))
      simp only [List.mem_cons, List.not_mem_nil, or_false] at hg
      rcases hg with rfl | rfl | rfl | rfl | rfl | rfl | rfl | rfl
      · have ht : (hexEncodeChars ip).take 4 = ((hexEncodeChars ip).drop 0).take 4 := by rfl
        constructor
        · show ((hexEncodeChars ip).take 4).length = 4
          rw [ht, hlen4]
          decide
        · intro cch hc
          exact hmemtd 0 cch (ht ▸ hc)
      · exact ⟨by show (((hexEncodeChars ip).drop 4).take 4).length = 4; rw [hlen4]; decide,
          fun cch hc => hmemtd 4 cch hc⟩
      · exact ⟨by show (((hexEncodeChars ip).drop 8).take 4).length = 4; rw [hlen4]; decide,
          fun cch hc => hmemtd 8 cch hc⟩
      · exact ⟨by show (((hexEncodeChars ip).drop 12).take 4).length = 4; rw [hlen4]; decide,
          fun cch hc => hmemtd 12 cch hc⟩
      · exact ⟨by show (((hexEncodeChars ip).drop 16).take 4).length = 4; rw [hlen4]; decide,
          fun cch hc => hmemtd 16 cch hc⟩
      · exact ⟨by show (((hexEncodeChars ip).drop 20).take 4).length = 4; rw [hlen4]; decide,
          fun cch hc => hmemtd 20 cch hc⟩
      · exact ⟨by show (((hexEncodeChars ip).drop 24).take 4).length = 4; rw [hlen4]; decide,
          fun cch hc => hmemtd 24 cch hc⟩
      · constructor
        · show ((hexEncodeChars ip).drop 28).length = 4
          rw [List.length_drop, hdl]
        · intro cch hc
          exact hexEncodeChars_mem ip cch (List.drop_subset _ _ hc)
    · simp only [fullString, h4]
      simp only [String.length_append]
      show ((hexEncodeChars ip).take 4).length + 1 + (((hexEncodeChars ip).drop 4).take 4).length
          + 1 + (((hexEncodeChars ip).drop 8).take 4).length
          + 1 + (((hexEncodeChars ip).drop 12).take 4).length
          + 1 + (((hexEncodeChars ip).drop 16).take 4).length
          + 1 + (((hexEncodeChars ip).drop 20).take 4).length
          + 1 + (((hexEncodeChars ip).drop 24).take 4).length
          + 1 + ((hexEncodeChars ip).drop 28).length = 39
      simp only [List.length_take, List.length_drop, hdl]
      decide

theorem fullString_expanded_witness :
    fullString [127, 0, 0, 1] = ipString [127, 0, 0, 1]
    ∧ (∃ g1 g2 g3 g4 g5 g6 g7 g8 : String,
        fullString [32, 1, 13, 184, 0, 0, 0, 0, 0, 0, 0, 0, 0, 0, 0, 1] =
          g1 ++ ":" ++ g2 ++ ":" ++ g3 ++ ":" ++ g4 ++ ":" ++ g5 ++ ":" ++ g6 ++ ":" ++
            g7 ++ ":" ++ g8
        ∧ (∀ g ∈ [g1, g2, g3, g4, g5, g6, g7, g8],
            g.length = 4 ∧ ∀ cch ∈ g.data, cch ∈ hexLower)
        ∧ (fullString [32, 1, 13, 184, 0, 0, 0, 0, 0, 0, 0, 0, 0, 0, 0, 1]).length = 39) := by
  constructor
  · exact (fullString_expanded [127, 0, 0, 1]).1 [127, 0, 0, 1] rfl
  · exact (fullString_expanded [32, 1, 13, 184, 0, 0, 0, 0, 0, 0, 0, 0, 0, 0, 0, 1]).2
      (by decide) (by decide)

/-- Every branch of the socket-read path marks the socket as touched. -/
theorem readFromSock_socketRead (c : ConnState) (b : List Nat) (env : ReadEnv) :
    (readFromSock c b env).socketRead = true := by
  unfold readFromSock
  split
  · rfl
  · split
    · rfl
    · split
      · rfl
      · split
        · rfl
        · rfl

/-- Claim C1: the stash cursor never exceeds the stash length (it starts at
zero over an empty stash and every `Read` preserves the bound); `Read`
touches the socket exactly when the stash is exhausted; when the socket path
extracts at least one frame, the extracted frames replace the stash with the
cursor reset to zero and the read proceeds as the stash delivery step from
there; when the cursor is strictly below the stash length, `Read` is exactly
the stash delivery step — a pure memory copy whose outcome is independent of
the socket environment. -/
theorem read_state_machine (c : ConnState) (b : List Nat) (env : ReadEnv) :
    ((TCPConn.Read c b env).socketRead = true ↔ exhausted c)
    ∧ (∀ l r, (newTCPConn l r).stashId ≤ stashLen (newTCPConn l r))
    ∧ (c.stashId ≤ stashLen c →
        (TCPConn.Read c b env).conn.stashId ≤ stashLen (TCPConn.Read c b env).conn)
    ∧ (∀ data dp packets, exhausted c → env.sock = .ok data →
        env.decrypt data = .ok dp → env.append dp = .ok packets → packets ≠ [] →
        TCPConn.Read c b env =
            deliverStash { c with stash := some packets, stashId := 0 } b true
        ∧ (TCPConn.Read c b env).conn.stash = some packets
        ∧ (TCPConn.Read c b env).conn.stashId = 1)
    ∧ (¬ exhausted c →
        TCPConn.Read c b env = deliverStash c b false
        ∧ (TCPConn.Read c b env).socketRead = false
        ∧ ∀ env2, TCPConn.Read c b env2 = TCPConn.Read c b env) := by
  refine ⟨?_, ?_, ?_, ?_, ?_⟩
  · by_cases hx : exhausted c
    · have h1 : TCPConn.Read c b env = readFromSock c b env := by
        unfold TCPConn.Read
        exact if_pos hx
      rw [h1]
      exact iff_of_true (readFromSock_socketRead c b env) hx
    · have h1 : TCPConn.Read c b env = deliverStash c b false := by
        unfold TCPConn.Read
        exact if_neg hx
      rw [h1]
      exact iff_of_false (by simp [deliverStash]) hx
  · intro l r
    simp [newTCPConn, stashLen]
  · intro hinv
    by_cases hx : exhausted c
    · have h1 : TCPConn.Read c b env = readFromSock c b env := by
        unfold TCPConn.Read
        exact if_pos hx
      rw [h1]
      unfold readFromSock
      split
      · exact hinv
      · split
        · exact hinv
        · split
          · exact hinv
          · split
            · exact hinv
            · rename_i packets hne
              simp only [deliverStash, stashLen]
              simp
              omega
    · have h1 : TCPConn.Read c b env = deliverStash c b false := by
        unfold TCPConn.Read
        exact if_neg hx
      rw [h1]
      unfold exhausted stashLen at hx
      push_neg at hx
      simp only [deliverStash, stashLen]
      simp
      omega
  · intro data dp packets hx hsock hdec happ hne
    have h1 : TCPConn.Read c b env = readFromSock c b env := by
      unfold TCPConn.Read
      exact if_pos hx
    have hres : TCPConn.Read c b env =
        deliverStash { c with stash := some packets, stashId := 0 } b true := by
      rw [h1]
      unfold readFromSock
      simp [hsock, hdec, happ, List.length_eq_zero, hne]
    refine ⟨hres, ?_, ?_⟩
    · rw [hres]
      rfl
    · rw [hres]
      rfl
  · intro hx
    have h1 : TCPConn.Read c b env = deliverStash c b false := by
      unfold TCPConn.Read
      exact if_neg hx
    refine ⟨h1, ?_, ?_⟩
    · rw [h1]
      rfl
    · intro env2
      rw [h1]
      unfold TCPConn.Read
      exact if_neg hx

theorem read_state_machine_witness :
    ((TCPConn.Read ⟨some [[5]], 1, "L", "R"⟩ [0]
        ⟨.ok [9], fun d => .ok d, fun _ => .ok [[7]]⟩).socketRead = true
      ↔ exhausted ⟨some [[5]], 1, "L", "R"⟩)
    ∧ (TCPConn.Read ⟨some [[5, 6]], 0, "L", "R"⟩ [0]
        ⟨.ok [9], fun d => .ok d, fun _ => .ok [[7]]⟩).conn.stashId ≤
        stashLen (TCPConn.Read ⟨some [[5, 6]], 0, "L", "R"⟩ [0]
          ⟨.ok [9], fun d => .ok d, fun _ => .ok [[7]]⟩).conn
    ∧ TCPConn.Read ⟨some [[5]], 1, "L", "R"⟩ [0]
        ⟨.ok [9], fun d => .ok d, fun _ => .ok [[7]]⟩ =
        deliverStash ⟨some [[7]], 0, "L", "R"⟩ [0] true
    ∧ TCPConn.Read ⟨some [[5, 6]], 0, "L", "R"⟩ [0]
        ⟨.ok [9], fun d => .ok d, fun _ => .ok [[7]]⟩ =
        deliverStash ⟨some [[5, 6]], 0, "L", "R"⟩ [0] false := by
  refine ⟨(read_state_machine _ _ _).1, ?_, ?_, ?_⟩
  · exact (read_state_machine ⟨some [[5, 6]], 0, "L", "R"⟩ [0] _).2.2.1 (by decide)
  · exact ((read_state_machine ⟨some [[5]], 1, "L", "R"⟩ [0] _).2.2.2.1
      [9] [9] [[7]] (Or.inr (by decide)) rfl rfl rfl (by decide)).1
  · exact ((read_state_machine ⟨some [[5, 6]], 0, "L", "R"⟩ [0] _).2.2.2.2
      (by decide)).1

theorem read_truncation_witness :
    (TCPConn.Read ⟨some [[1, 2, 3, 4, 5]], 0, "L", "R"⟩ [9, 9, 9] envNoop).n = 5
    ∧ (TCPConn.Read ⟨some [[1, 2, 3, 4, 5]], 0, "L", "R"⟩ [9, 9, 9] envNoop).buf =
        [1, 2, 3, 4, 5].take 3
    ∧ (TCPConn.Read ⟨some [[1, 2, 3, 4, 5]], 0, "L", "R"⟩ [9, 9, 9] envNoop).err = none
    ∧ (3 : Nat) < (TCPConn.Read ⟨some [[1, 2, 3, 4, 5]], 0, "L", "R"⟩ [9, 9, 9] envNoop).n := by
  exact read_truncation ⟨some [[1, 2, 3, 4, 5]], 0, "L", "R"⟩ [9, 9, 9] envNoop
    [[1, 2, 3, 4, 5]] [1, 2, 3, 4, 5] rfl (by decide) rfl (by decide)

end Ikago
